import Mathlib

/-!
Verification development for the berry-oximeter library.

Part 1: the streaming frame decoder (spec section 4.1).  The decoder source
(BCIProtocolParser in parser.py) is not part of the provided sources, so the
decoder is modelled from the specification text: 5-byte frames, a sync marker
in bit 7 of the first byte, continuation bytes with bit 7 clear, byte-at-a-time
resynchronization, and the field decode mapping of spec section 4.1.

Part 2: the consumer layer (BerryOximeter in oximeter.py), embedded from the
source file src/berry_oximeter/oximeter.py.
-/

set_option autoImplicit false

namespace BerryOximeter

/-- Wire bytes are naturals below 256; only bit 7 matters for framing. -/
abbrev Byte := Nat

/-- Modelled from the spec: frame length is fixed at 5 bytes
(1 sync byte + 4 data bytes, spec section 3). -/
def FRAME_LEN : Nat := 5

/-- Modelled from the spec: the synchronization marker is bit 7 of a byte. -/
def isSync (b : Byte) : Bool := b.testBit 7

/-- A legal frame-start byte carries the sync marker. -/
def validStart (b : Byte) : Bool := isSync b

/-- A legal continuation byte must NOT carry the sync marker (spec 4.1 step 1b). -/
def validCont (b : Byte) : Bool := !isSync b

/-- Device status enumeration (spec section 3). -/
inductive Status where
  | reading
  | no_sensor
  | sensor_off
  | searching
  | low_perfusion
deriving DecidableEq, Repr

/-- Modelled from the spec: status code bits map to the enum; undefined codes
decode to reading (spec 4.1 field mapping). -/
def statusOfCode (c : Nat) : Status :=
  match c with
  | 0 => .reading
  | 1 => .no_sensor
  | 2 => .sensor_off
  | 3 => .searching
  | 4 => .low_perfusion
  | _ => .reading

/-- A decoded reading as produced by the frame decoder (spec section 3).
The timestamp is assigned by the consumer layer, outside the pure decode. -/
structure Reading where
  spo2 : Option Nat
  pulse_rate : Option Nat
  pleth : Option Nat
  signal_strength : Nat
  status : Status
  pulse_beep : Bool
deriving DecidableEq, Repr

/-- Modelled from the spec: the invalid sentinel for spo2 and pulse-rate raw
fields (the all-ones 7-bit value; for spo2 any value above 100 is absent). -/
def SENTINEL : Nat := 127

/-- Modelled from the spec (4.1 field decode mapping): byte 0 carries the sync
marker (bit 7), the pulse-beep flag (bit 0) and partial signal-strength bits
(bits 1-3); byte 1 is the pleth amplitude; byte 2 carries the remaining
signal-strength bit (bit 3) and the status code (bits 0-2); byte 3 is the
pulse-rate low bits; byte 4 is the spo2 value, absent when above 100.
Undefined status codes decode to reading with signal_strength forced to 0.
This assignment reproduces the spec scenario: frame 0x81 0x00 0x08 0x3C 0x62
decodes to spo2 = 98, signal_strength = 8, status = reading. -/
def decodeFrame (b0 b1 b2 b3 b4 : Byte) : Reading :=
  let code := b2 % 8
  let sig := (b2 / 8 % 2) * 8 + (b0 / 2 % 8)
  { spo2 := if b4 > 100 then none else some b4
    pulse_rate := if b3 = SENTINEL then none else some b3
    pleth := some b1
    signal_strength := if code < 5 then sig else 0
    status := statusOfCode code
    pulse_beep := b0 % 2 = 1 }

/-- One observable step of the decoder: either a corrupt or spurious byte is
dropped from the buffer front (exactly one byte), or a full valid frame is
consumed and a Reading emitted. -/
inductive DecodeEvent where
  | drop (b : Byte)
  | emit (b0 b1 b2 b3 b4 : Byte) (r : Reading)
deriving DecidableEq, Repr

/-- The bytes consumed from the buffer by an event. -/
def eventBytes : DecodeEvent → List Byte
  | .drop b => [b]
  | .emit b0 b1 b2 b3 b4 _ => [b0, b1, b2, b3, b4]

/-- The reading emitted by an event, if any. -/
def emittedReading : DecodeEvent → Option Reading
  | .drop _ => none
  | .emit _ _ _ _ _ r => some r

/-- True when an event is a drop of exactly one byte. -/
def dropIsSingleByte : DecodeEvent → Bool
  | .drop b => eventBytes (.drop b) = [b]
  | .emit _ _ _ _ _ _ => true

/-- Modelled from the spec (4.1 synchronization algorithm): while the buffer
holds at least one frame length of bytes, inspect the front; if the front byte
is not a legal frame start, or any continuation byte of the candidate frame
illegally carries the sync marker, discard exactly one byte and repeat;
otherwise decode the frame, emit it, and remove the frame from the front.
Returns the event trace and the residual buffer. -/
def runE : List Byte → List DecodeEvent × List Byte
  | b0 :: b1 :: b2 :: b3 :: b4 :: rest =>
    if validStart b0 && validCont b1 && validCont b2 && validCont b3 && validCont b4 then
      let p := runE rest
      (.emit b0 b1 b2 b3 b4 (decodeFrame b0 b1 b2 b3 b4) :: p.1, p.2)
    else
      let p := runE (b1 :: b2 :: b3 :: b4 :: rest)
      (.drop b0 :: p.1, p.2)
  | short => ([], short)
termination_by l => l.length
decreasing_by
  all_goals simp [List.length_cons]
  omega

/-- The readings extracted from a buffer, with the residual buffer. -/
def run (l : List Byte) : List Reading × List Byte :=
  ((runE l).1.filterMap emittedReading, (runE l).2)

/-- Decoder state: the byte accumulation buffer (spec 4.1). -/
structure DecoderState where
  buffer : List Byte
deriving DecidableEq, Repr

/-- A fresh decoder has an empty buffer. -/
def freshDecoder : DecoderState := ⟨[]⟩

/-- Modelled from the spec: feed appends the chunk to the internal buffer and
repeatedly extracts complete frames from the front (spec 4.1 operation feed). -/
def feed (s : DecoderState) (chunk : List Byte) : List Reading × DecoderState :=
  let p := run (s.buffer ++ chunk)
  (p.1, ⟨p.2⟩)

/-- feed, with the full event trace exposed. -/
def feedE (s : DecoderState) (chunk : List Byte) : List DecodeEvent × DecoderState :=
  let p := runE (s.buffer ++ chunk)
  (p.1, ⟨p.2⟩)

/-- Feeding a list of chunks in order, concatenating the emitted readings. -/
def feedAll (s : DecoderState) : List (List Byte) → List Reading × DecoderState
  | [] => ([], s)
  | c :: cs =>
    let p := feed s c
    let q := feedAll p.2 cs
    (p.1 ++ q.1, q.2)

/-- A structurally valid frame: 5 bytes, sync marker on the first byte only. -/
def validFrame (l : List Byte) : Bool :=
  match l with
  | [b0, b1, b2, b3, b4] =>
    validStart b0 && validCont b1 && validCont b2 && validCont b3 && validCont b4
  | _ => false

/-- Decode a 5-byte frame given as a list. -/
def decodeList (l : List Byte) : Option Reading :=
  match l with
  | [b0, b1, b2, b3, b4] => some (decodeFrame b0 b1 b2 b3 b4)
  | _ => none

/-- The 5-byte window of l at offset i is a structurally valid frame. -/
def validWindow (l : List Byte) (i : Nat) : Bool :=
  validFrame ((l.drop i).take FRAME_LEN)

/-! Part 2: the BerryOximeter consumer layer, embedded from oximeter.py.
Timestamps are abstract instants (naturals); status is the string used by
oximeter.py (compared against "reading" and written to CSV as-is). -/

/-- A caller-visible reading as consumed by BerryOximeter (models.py is not
part of the provided sources; the field list follows the spec data model and
the field accesses made by oximeter.py). -/
structure OximeterReading where
  timestamp : Nat
  spo2 : Option Nat
  pulse_rate : Option Nat
  pleth : Option Nat
  signal_strength : Nat
  status : String
  pulse_beep : Bool
deriving DecidableEq, Repr

/-- An open CSV file: the rows written so far (header included) and how many
of them have been flushed to disk. -/
structure CsvFile where
  rows : List (List String)
  flushedRows : Nat
deriving DecidableEq, Repr

/-- The header row written by start_logging (oximeter.py lines 209-219). -/
def csvHeader : List String :=
  ["timestamp", "spo2", "pulse_rate", "pleth", "signal_strength", "status",
    "pulse_beep"]

/-- Abstract rendering of a timestamp instant (strftime is not modelled). -/
def fmtTimestamp (t : Nat) : String := toString t

/-- An optional numeric CSV cell: the number, or the empty string when the
value is absent (oximeter.py lines 319-321). -/
def optCell (o : Option Nat) : String :=
  match o with
  | some n => toString n
  | none => ""

/-- Python renders booleans as True and False in CSV cells. -/
def boolCell (b : Bool) : String := if b then "True" else "False"

/-- The CSV row written for one reading by _log_to_csv (oximeter.py lines
316-326): timestamp, spo2, pulse_rate, pleth, signal_strength, status,
pulse_beep, in that order. -/
def csvRow (r : OximeterReading) : List String :=
  [fmtTimestamp r.timestamp, optCell r.spo2, optCell r.pulse_rate,
    optCell r.pleth, toString r.signal_strength, r.status,
    boolCell r.pulse_beep]

/-- The mutable state of a BerryOximeter instance (oximeter.py __init__,
lines 29-49), restricted to the fields the data path touches.  The streaming
callback and console are modelled by recording the readings delivered to
them. -/
structure OximeterState where
  latest_reading : Option OximeterReading
  collected_readings : List OximeterReading
  is_collecting : Bool
  csv_file : Option CsvFile
  csv_writer : Bool
  csv_filename : Option String
  console_logging : Bool
  console_out : List OximeterReading
  min_signal_strength : Option Nat
  streaming_callback : Bool
  callback_out : List OximeterReading
deriving DecidableEq, Repr

/-- The state built by BerryOximeter.__init__. -/
def initState : OximeterState :=
  { latest_reading := none
    collected_readings := []
    is_collecting := false
    csv_file := none
    csv_writer := false
    csv_filename := none
    console_logging := false
    console_out := []
    min_signal_strength := none
    streaming_callback := false
    callback_out := [] }

/-- set_filter (oximeter.py lines 244-251). -/
def set_filter (m : Option Nat) (s : OximeterState) : OximeterState :=
  { s with min_signal_strength := m }

/-- start_logging with an explicit filename (oximeter.py lines 188-222; the
filename auto-generation branch builds a name from the wall clock and is not
modelled).  Opens the file fresh, writes the header row and flushes it. -/
def start_logging (filename : String) (s : OximeterState) :
    String × OximeterState :=
  (filename,
    { s with
        csv_filename := some filename
        csv_file := some ⟨[csvHeader], 1⟩
        csv_writer := true })

/-- stop_logging (oximeter.py lines 224-238): closes the file and clears the
writer only when a file is open, then always returns and clears the stored
filename. -/
def stop_logging (s : OximeterState) : Option String × OximeterState :=
  let s1 := if s.csv_file.isSome then
    { s with csv_file := none, csv_writer := false } else s
  (s1.csv_filename, { s1 with csv_filename := none })

/-- _log_to_csv (oximeter.py lines 313-327): when the writer is active,
append the reading's row and flush the file. -/
def log_to_csv (s : OximeterState) (r : OximeterReading) : OximeterState :=
  if s.csv_writer then
    { s with csv_file :=
        s.csv_file.map (fun fl => ⟨fl.rows ++ [csvRow r], fl.rows.length + 1⟩) }
  else s

/-- The body of the per-reading loop in _handle_data after the filter check
(oximeter.py lines 263-280): update the latest reading, collect, stream,
log to console, log to CSV. -/
def deliver_reading (s : OximeterState) (r : OximeterReading) : OximeterState :=
  let s1 := { s with latest_reading := some r }
  let s2 := if s1.is_collecting then
    { s1 with collected_readings := s1.collected_readings ++ [r] } else s1
  let s3 := if s2.streaming_callback then
    { s2 with callback_out := s2.callback_out ++ [r] } else s2
  let s4 := if s3.console_logging then
    { s3 with console_out := s3.console_out ++ [r] } else s3
  if s4.csv_writer then log_to_csv s4 r else s4

/-- One iteration of the _handle_data loop (oximeter.py lines 257-280): a
reading below the configured minimum signal strength is skipped entirely. -/
def handle_reading (s : OximeterState) (r : OximeterReading) : OximeterState :=
  match s.min_signal_strength with
  | some m => if r.signal_strength < m then s else deliver_reading s r
  | none => deliver_reading s r

/-- _handle_data (oximeter.py lines 253-280), applied to the readings the
parser produced for one chunk. -/
def handle_data (s : OximeterState) (readings : List OximeterReading) :
    OximeterState :=
  readings.foldl handle_reading s

/-- True when the reading passes the signal-strength filter of the state. -/
def passesFilter (s : OximeterState) (r : OximeterReading) : Bool :=
  match s.min_signal_strength with
  | some m => decide (m ≤ r.signal_strength)
  | none => true

/-- The number of loop iterations _get_reading_async performs within the
timeout (oximeter.py lines 150-159): the loop condition is checked at
elapsed times 0, 0.1, 0.2, ... seconds (idealizing the 0.1 s sleep as
exact), so with a non-positive timeout the body never runs, and otherwise it
runs ceil(10 times timeout) times. -/
def pollCount (timeout : ℚ) : Nat :=
  if timeout ≤ 0 then 0 else (Int.ceil (10 * timeout)).toNat

/-- The polling loop of _get_reading_async: at each iteration it returns the
cached latest reading if one is present, else sleeps and retries; latestAt k
is the value of the latest-reading cache observed at the k-th check. -/
def pollLoop (latestAt : Nat → Option OximeterReading) :
    Nat → Nat → Option OximeterReading
  | _, 0 => none
  | k, fuel + 1 =>
    match latestAt k with
    | some r => some r
    | none => pollLoop latestAt (k + 1) fuel

/-- get_reading's data path (oximeter.py lines 132-159): poll the cache up to
pollCount times; none models raising NoDataError. -/
def get_reading_model (timeout : ℚ)
    (latestAt : Nat → Option OximeterReading) : Option OximeterReading :=
  pollLoop latestAt 0 (pollCount timeout)

/-- A concrete reading with full signal, used in concrete theorems. -/
def sampleReading : OximeterReading :=
  { timestamp := 0
    spo2 := some 98
    pulse_rate := some 60
    pleth := some 0
    signal_strength := 8
    status := "reading"
    pulse_beep := false }

/-- A concrete reading with weak signal strength 3. -/
def weakReading : OximeterReading :=
  { sampleReading with signal_strength := 3 }

/-- A concrete state with CSV logging active and a minimum signal strength of
5 configured. -/
def loggingFilteredState : OximeterState :=
  { initState with
      csv_file := some ⟨[csvHeader], 1⟩
      csv_writer := true
      csv_filename := some "data.csv"
      min_signal_strength := some 5 }

/-- A concrete state with every sink active and a filter of 4 configured. -/
def fullSinkState : OximeterState :=
  { loggingFilteredState with
      is_collecting := true
      streaming_callback := true
      console_logging := true
      min_signal_strength := some 4 }

/-! Basic equations for the decoder loop. -/

theorem not_cons5_length (l : List Byte)
    (h : ∀ (b0 b1 b2 b3 b4 : Byte) (rest : List Byte),
      l = b0 :: b1 :: b2 :: b3 :: b4 :: rest → False) :
    l.length < 5 := by
  match l with
  | [] => simp
  | [_] => simp
  | [_, _] => simp
  | [_, _, _] => simp
  | [_, _, _, _] => simp
  | a :: b :: c :: d :: e :: r => exact absurd rfl (h a b c d e r)

theorem runE_short (l : List Byte) (h : l.length < 5) : runE l = ([], l) := by
  unfold runE
  match l, h with
  | [], _ => rfl
  | [_], _ => rfl
  | [_, _], _ => rfl
  | [_, _, _], _ => rfl
  | [_, _, _, _], _ => rfl
  | _ :: _ :: _ :: _ :: _ :: rest, h => exact absurd h (by simp)

theorem runE_cons_valid (b0 b1 b2 b3 b4 : Byte) (rest : List Byte)
    (h : (validStart b0 && validCont b1 && validCont b2 && validCont b3 &&
      validCont b4) = true) :
    runE (b0 :: b1 :: b2 :: b3 :: b4 :: rest) =
      (.emit b0 b1 b2 b3 b4 (decodeFrame b0 b1 b2 b3 b4) :: (runE rest).1,
        (runE rest).2) := by
  rw [runE]
  simp [h]

theorem runE_cons_invalid (b0 b1 b2 b3 b4 : Byte) (rest : List Byte)
    (h : (validStart b0 && validCont b1 && validCont b2 && validCont b3 &&
      validCont b4) = false) :
    runE (b0 :: b1 :: b2 :: b3 :: b4 :: rest) =
      (.drop b0 :: (runE (b1 :: b2 :: b3 :: b4 :: rest)).1,
        (runE (b1 :: b2 :: b3 :: b4 :: rest)).2) := by
  rw [runE]
  simp [h]

/-- The decoder loop stops only when fewer than one frame length of bytes
remain: the residual buffer is always shorter than a frame. -/
theorem runE_residual_short (l : List Byte) : (runE l).2.length < FRAME_LEN := by
  induction l using runE.induct with
  | case1 b0 b1 b2 b3 b4 rest h ih => rw [runE_cons_valid b0 b1 b2 b3 b4 rest h]; exact ih
  | case2 b0 b1 b2 b3 b4 rest h ih =>
    rw [runE_cons_invalid b0 b1 b2 b3 b4 rest (by simpa using h)]
    exact ih
  | case3 short h =>
    rw [runE_short short (not_cons5_length short h)]
    exact not_cons5_length short h

/-- Conservation: every input byte is accounted for, either consumed by an
event (a single dropped byte or a five-byte frame) or left in the residual
buffer. No byte is ever lost or invented by the decoder loop. -/
theorem runE_conservation (l : List Byte) :
    ((runE l).1.map eventBytes).flatten ++ (runE l).2 = l := by
  induction l using runE.induct with
  | case1 b0 b1 b2 b3 b4 rest h ih =>
    rw [runE_cons_valid b0 b1 b2 b3 b4 rest h]
    simpa [eventBytes] using ih
  | case2 b0 b1 b2 b3 b4 rest h ih =>
    rw [runE_cons_invalid b0 b1 b2 b3 b4 rest (by simpa using h)]
    simpa [eventBytes] using ih
  | case3 short h =>
    rw [runE_short short (not_cons5_length short h)]
    simp

/-- Chunk fusion: running the loop on x ++ y is the same as running it on x,
then running it on the residual of x followed by y.  This is the key fact
behind chunk-boundary independence. -/
theorem runE_append (x y : List Byte) :
    runE (x ++ y) =
      ((runE x).1 ++ (runE ((runE x).2 ++ y)).1, (runE ((runE x).2 ++ y)).2) := by
  induction x using runE.induct with
  | case1 b0 b1 b2 b3 b4 rest h ih =>
    rw [runE_cons_valid b0 b1 b2 b3 b4 rest h]
    simp only [List.cons_append]
    rw [runE_cons_valid b0 b1 b2 b3 b4 (rest ++ y) h, ih]
  | case2 b0 b1 b2 b3 b4 rest h ih =>
    rw [runE_cons_invalid b0 b1 b2 b3 b4 rest (by simpa using h)]
    simp only [List.cons_append]
    rw [runE_cons_invalid b0 b1 b2 b3 b4 (rest ++ y) (by simpa using h)]
    rw [show (b1 :: b2 :: b3 :: b4 :: rest) ++ y = b1 :: b2 :: b3 :: b4 :: (rest ++ y)
      from rfl] at ih
    rw [ih]
  | case3 short h =>
    rw [runE_short short (not_cons5_length short h)]
    simp

theorem run_append (x y : List Byte) :
    run (x ++ y) =
      ((run x).1 ++ (run ((run x).2 ++ y)).1, (run ((run x).2 ++ y)).2) := by
  simp [run, runE_append x y, List.filterMap_append]

/-- Feeding chunks one at a time is the same as feeding their concatenation:
starting from a buffer shorter than a frame, the decoder state machine
computes run of the cumulative byte stream. -/
theorem feedAll_run (cs : List (List Byte)) (b : List Byte) (hb : b.length < 5) :
    feedAll ⟨b⟩ cs = ((run (b ++ cs.flatten)).1, ⟨(run (b ++ cs.flatten)).2⟩) := by
  induction cs generalizing b with
  | nil =>
    simp only [feedAll, List.flatten_nil, List.append_nil]
    rw [show run b = ([], b) by simp [run, runE_short b hb]]
  | cons c cs ih =>
    have hres : (run (b ++ c)).2.length < 5 := runE_residual_short (b ++ c)
    simp only [feedAll, feed]
    rw [ih (run (b ++ c)).2 hres]
    have hx := run_append (b ++ c) cs.flatten
    rw [List.flatten_cons, ← List.append_assoc, hx]

/-! Reading-level equations and window lemmas. -/

theorem run_short (l : List Byte) (h : l.length < 5) : run l = ([], l) := by
  simp [run, runE_short l h]

theorem run_cons_valid (b0 b1 b2 b3 b4 : Byte) (rest : List Byte)
    (h : (validStart b0 && validCont b1 && validCont b2 && validCont b3 &&
      validCont b4) = true) :
    run (b0 :: b1 :: b2 :: b3 :: b4 :: rest) =
      (decodeFrame b0 b1 b2 b3 b4 :: (run rest).1, (run rest).2) := by
  simp [run, runE_cons_valid b0 b1 b2 b3 b4 rest h, emittedReading]

theorem run_cons_invalid (b0 b1 b2 b3 b4 : Byte) (rest : List Byte)
    (h : (validStart b0 && validCont b1 && validCont b2 && validCont b3 &&
      validCont b4) = false) :
    run (b0 :: b1 :: b2 :: b3 :: b4 :: rest) = run (b1 :: b2 :: b3 :: b4 :: rest) := by
  simp [run, runE_cons_invalid b0 b1 b2 b3 b4 rest h, emittedReading]

theorem validWindow_succ_cons (b : Byte) (l : List Byte) (i : Nat) :
    validWindow (b :: l) (i + 1) = validWindow l i := rfl

theorem validWindow_zero_cons5 (b0 b1 b2 b3 b4 : Byte) (rest : List Byte) :
    validWindow (b0 :: b1 :: b2 :: b3 :: b4 :: rest) 0 =
      (validStart b0 && validCont b1 && validCont b2 && validCont b3 &&
        validCont b4) := rfl

theorem validFrame_shape (f : List Byte) (h : validFrame f = true) :
    ∃ b0 b1 b2 b3 b4, f = [b0, b1, b2, b3, b4] ∧
      (validStart b0 && validCont b1 && validCont b2 && validCont b3 &&
        validCont b4) = true := by
  match f with
  | [] => simp [validFrame] at h
  | [_] => simp [validFrame] at h
  | [_, _] => simp [validFrame] at h
  | [_, _, _] => simp [validFrame] at h
  | [_, _, _, _] => simp [validFrame] at h
  | [b0, b1, b2, b3, b4] => exact ⟨b0, b1, b2, b3, b4, rfl, h⟩
  | _ :: _ :: _ :: _ :: _ :: _ :: _ => simp [validFrame] at h

/-- A byte run containing no structurally valid frame window produces no
readings at all. -/
theorem noWindow_noReading (l : List Byte)
    (h : ∀ i, validWindow l i = false) : (run l).1 = [] := by
  induction l using runE.induct with
  | case1 b0 b1 b2 b3 b4 rest hv ih =>
    have h0 := h 0
    rw [validWindow_zero_cons5] at h0
    rw [hv] at h0
    exact absurd h0 (by simp)
  | case2 b0 b1 b2 b3 b4 rest hv ih =>
    rw [run_cons_invalid b0 b1 b2 b3 b4 rest (by simpa using hv)]
    exact ih (fun i => by rw [← validWindow_succ_cons b0 _ i]; exact h (i + 1))
  | case3 short hs =>
    rw [run_short short (not_cons5_length short hs)]

/-- Dropping the front byte when the front window is invalid does not change
the readings produced. -/
theorem run_tail_of_invalid (l : List Byte) (h5 : 5 ≤ l.length)
    (h0 : validWindow l 0 = false) : (run l).1 = (run l.tail).1 := by
  match l with
  | b0 :: b1 :: b2 :: b3 :: b4 :: rest =>
    rw [validWindow_zero_cons5] at h0
    rw [run_cons_invalid b0 b1 b2 b3 b4 rest h0]
    rfl
  | [] => simp at h5
  | [_] => simp at h5
  | [_, _] => simp at h5
  | [_, _, _] => simp at h5
  | [_, _, _, _] => simp at h5

/-- A byte stream whose only structurally valid frame window sits at the end
of the prefix pre decodes to exactly that frame's Reading. -/
theorem run_unique_frame (pre f post : List Byte) (hf : validFrame f = true)
    (hu : ∀ i, validWindow (pre ++ f ++ post) i = true → i = pre.length) :
    (run (pre ++ f ++ post)).1 = (decodeList f).toList := by
  induction pre with
  | nil =>
    obtain ⟨b0, b1, b2, b3, b4, rfl, hv⟩ := validFrame_shape f hf
    simp only [List.nil_append]
    rw [show [b0, b1, b2, b3, b4] ++ post = b0 :: b1 :: b2 :: b3 :: b4 :: post
      from rfl]
    rw [run_cons_valid b0 b1 b2 b3 b4 post hv]
    have hpost : (run post).1 = [] := by
      apply noWindow_noReading
      intro i
      by_contra hcon
      have htrue : validWindow post i = true := by
        cases hw : validWindow post i
        · exact absurd hw hcon
        · rfl
      have hshift : validWindow ([b0, b1, b2, b3, b4] ++ post) (i + 5) = true := by
        have hdrop : ([b0, b1, b2, b3, b4] ++ post).drop (i + 5) = post.drop i := rfl
        simp only [validWindow, hdrop]
        exact htrue
      have := hu (i + 5) (by simpa using hshift)
      simp at this
    rw [hpost]
    simp [decodeList]
  | cons b pre ih =>
    have hlen : 5 ≤ ((b :: pre) ++ f ++ post).length := by
      obtain ⟨b0, b1, b2, b3, b4, rfl, hv⟩ := validFrame_shape f hf
      simp
      omega
    have h0 : validWindow ((b :: pre) ++ f ++ post) 0 = false := by
      cases hw : validWindow ((b :: pre) ++ f ++ post) 0
      · rfl
      · have := hu 0 hw
        simp at this
    rw [run_tail_of_invalid _ hlen h0]
    rw [show ((b :: pre) ++ f ++ post).tail = pre ++ f ++ post from rfl]
    apply ih
    intro i hi
    have : validWindow ((b :: pre) ++ f ++ post) (i + 1) = true := by
      rw [show (b :: pre) ++ f ++ post = b :: (pre ++ f ++ post) from rfl,
        validWindow_succ_cons]
      exact hi
    have := hu (i + 1) this
    simpa using this

/-- A concatenation of structurally valid frames decodes to exactly their
readings, in order, with an empty residual buffer. -/
theorem run_frames (frames : List (List Byte))
    (h : ∀ f ∈ frames, validFrame f = true) :
    run frames.flatten = (frames.filterMap decodeList, []) := by
  induction frames with
  | nil => simp [run_short]
  | cons f fs ih =>
    obtain ⟨b0, b1, b2, b3, b4, rfl, hv⟩ := validFrame_shape f (h f (by simp))
    rw [List.flatten_cons]
    rw [show [b0, b1, b2, b3, b4] ++ fs.flatten =
      b0 :: b1 :: b2 :: b3 :: b4 :: fs.flatten from rfl]
    rw [run_cons_valid b0 b1 b2 b3 b4 fs.flatten hv]
    rw [ih (fun g hg => h g (by simp [hg]))]
    simp [decodeList]

theorem validFrame_length (f : List Byte) (h : validFrame f = true) :
    f.length = 5 := by
  obtain ⟨b0, b1, b2, b3, b4, rfl, -⟩ := validFrame_shape f h
  rfl

theorem validWindow_true_le (l : List Byte) (i : Nat)
    (h : validWindow l i = true) : i + 5 ≤ l.length := by
  have hlen := validFrame_length _ h
  simp [FRAME_LEN, List.length_take, List.length_drop] at hlen
  omega

theorem filterMap_decodeList_length (frames : List (List Byte))
    (h : ∀ f ∈ frames, validFrame f = true) :
    (frames.filterMap decodeList).length = frames.length := by
  induction frames with
  | nil => rfl
  | cons f fs ih =>
    obtain ⟨b0, b1, b2, b3, b4, rfl, -⟩ := validFrame_shape f (h f (by simp))
    simp only [List.filterMap_cons, decodeList, List.length_cons]
    rw [ih (fun g hg => h g (by simp [hg]))]

theorem dropIsSingleByte_true (e : DecodeEvent) : dropIsSingleByte e = true := by
  cases e with
  | drop b => simp [dropIsSingleByte, eventBytes]
  | emit b0 b1 b2 b3 b4 r => rfl

/-! The claims. -/

/-- Claim C1: for every byte sequence that embeds exactly one structurally
valid frame (its only valid 5-byte window sits right after the prefix of
noise), and for every partition of that sequence into chunks, feeding the
chunks in order to a fresh decoder yields exactly one Reading in total, and
that Reading is the decode of the embedded frame, independent of the
partition into chunks. -/
theorem resync_chunk_independent (pre f post : List Byte)
    (chunks : List (List Byte)) (hf : validFrame f = true)
    (hu : ∀ i, i < (pre ++ f ++ post).length →
      validWindow (pre ++ f ++ post) i = true → i = pre.length)
    (hc : chunks.flatten = pre ++ f ++ post) :
    (feedAll freshDecoder chunks).1 = (decodeList f).toList ∧
      (feedAll freshDecoder chunks).1.length = 1 := by
  have h1 := feedAll_run chunks [] (by simp)
  rw [show (⟨[]⟩ : DecoderState) = freshDecoder from rfl] at h1
  simp only [List.nil_append] at h1
  have hu2 : ∀ i, validWindow (pre ++ f ++ post) i = true → i = pre.length := by
    intro i hi
    have hle := validWindow_true_le _ i hi
    exact hu i (by omega) hi
  have h2 := run_unique_frame pre f post hf hu2
  constructor
  · rw [h1, hc, h2]
  · rw [h1, hc, h2]
    obtain ⟨b0, b1, b2, b3, b4, rfl, -⟩ := validFrame_shape f hf
    rfl

/-- Witness for claim C1 at a concrete noisy stream split into three chunks. -/
theorem resync_chunk_independent_witness :
    validFrame [129, 0, 8, 60, 98] = true ∧
      ([[0, 129], [0, 8], [60, 98, 255]] : List (List Byte)).flatten =
        [0] ++ [129, 0, 8, 60, 98] ++ [255] ∧
      ((feedAll freshDecoder [[0, 129], [0, 8], [60, 98, 255]]).1 =
        (decodeList [129, 0, 8, 60, 98]).toList ∧
      (feedAll freshDecoder [[0, 129], [0, 8], [60, 98, 255]]).1.length = 1) :=
  ⟨by decide, by decide,
    resync_chunk_independent [0] [129, 0, 8, 60, 98] [255]
      [[0, 129], [0, 8], [60, 98, 255]] (by decide) (by decide) (by decide)⟩

/-- Claim C2: a concatenation of N structurally valid frames, fed to a fresh
decoder under any chunking, yields exactly N Readings, namely the decodes of
the frames in order. -/
theorem order_preserved (frames chunks : List (List Byte))
    (hf : ∀ f ∈ frames, validFrame f = true)
    (hc : chunks.flatten = frames.flatten) :
    (feedAll freshDecoder chunks).1 = frames.filterMap decodeList ∧
      (feedAll freshDecoder chunks).1.length = frames.length := by
  have h1 := feedAll_run chunks [] (by simp)
  rw [show (⟨[]⟩ : DecoderState) = freshDecoder from rfl] at h1
  simp only [List.nil_append] at h1
  have h2 := run_frames frames hf
  constructor
  · rw [h1, hc, h2]
  · rw [h1, hc, h2]
    exact filterMap_decodeList_length frames hf

/-- Witness for claim C2: two frames split across unaligned chunks. -/
theorem order_preserved_witness :
    ([[129, 0, 8], [60, 98, 132, 1], [2, 3, 4]] : List (List Byte)).flatten =
      ([[129, 0, 8, 60, 98], [132, 1, 2, 3, 4]] : List (List Byte)).flatten ∧
      ((feedAll freshDecoder [[129, 0, 8], [60, 98, 132, 1], [2, 3, 4]]).1 =
        ([[129, 0, 8, 60, 98], [132, 1, 2, 3, 4]] :
          List (List Byte)).filterMap decodeList ∧
      (feedAll freshDecoder
          [[129, 0, 8], [60, 98, 132, 1], [2, 3, 4]]).1.length =
        ([[129, 0, 8, 60, 98], [132, 1, 2, 3, 4]] :
          List (List Byte)).length) :=
  ⟨by decide,
    order_preserved [[129, 0, 8, 60, 98], [132, 1, 2, 3, 4]]
      [[129, 0, 8], [60, 98, 132, 1], [2, 3, 4]] (by decide) (by decide)⟩

/-- Claim C3: after any feed call, from any decoder state and for any input
chunk, the internal accumulation buffer holds strictly fewer bytes than one
frame length; in particular the invariant is preserved across every call. -/
theorem buffer_residual_invariant (s : DecoderState) (c : List Byte) :
    ((feed s c).2).buffer.length < FRAME_LEN :=
  runE_residual_short (s.buffer ++ c)

/-- Claim C4: feed is a total function of the decoder state and the input
chunk (it never raises: it is defined on arbitrary, arbitrarily corrupt
chunks), every input byte is accounted for by the event trace - consumed by a
single-byte drop or a five-byte frame emission, or left buffered - and every
drop event discards exactly one byte, never a silently batched run. -/
theorem feed_never_fails_conservation (s : DecoderState) (c : List Byte) :
    ((feedE s c).1.map eventBytes).flatten ++ (feedE s c).2.buffer =
        s.buffer ++ c ∧
      (feedE s c).1.all dropIsSingleByte = true := by
  constructor
  · simpa [feedE] using runE_conservation (s.buffer ++ c)
  · exact List.all_eq_true.2 (fun e _ => dropIsSingleByte_true e)

/-- Claim C5: a single structurally valid frame fed one byte at a time to a
fresh decoder produces no Reading on the first four calls and exactly the
frame's Reading on the fifth call. -/
theorem boundary_byte_by_byte (b0 b1 b2 b3 b4 : Byte)
    (h : validFrame [b0, b1, b2, b3, b4] = true) :
    (feed freshDecoder [b0]).1 = [] ∧
      (feed (feed freshDecoder [b0]).2 [b1]).1 = [] ∧
      (feed (feed (feed freshDecoder [b0]).2 [b1]).2 [b2]).1 = [] ∧
      (feed (feed (feed (feed freshDecoder [b0]).2 [b1]).2 [b2]).2 [b3]).1 = [] ∧
      (feed (feed (feed (feed (feed freshDecoder [b0]).2 [b1]).2 [b2]).2
        [b3]).2 [b4]).1 = [decodeFrame b0 b1 b2 b3 b4] := by
  have hg : (validStart b0 && validCont b1 && validCont b2 && validCont b3 &&
      validCont b4) = true := h
  have e1 : feed freshDecoder [b0] = ([], ⟨[b0]⟩) := by
    simp [feed, freshDecoder, run_short]
  have e2 : feed (⟨[b0]⟩ : DecoderState) [b1] = ([], ⟨[b0, b1]⟩) := by
    simp [feed, run_short]
  have e3 : feed (⟨[b0, b1]⟩ : DecoderState) [b2] = ([], ⟨[b0, b1, b2]⟩) := by
    simp [feed, run_short]
  have e4 : feed (⟨[b0, b1, b2]⟩ : DecoderState) [b3] =
      ([], ⟨[b0, b1, b2, b3]⟩) := by
    simp [feed, run_short]
  have e5 : feed (⟨[b0, b1, b2, b3]⟩ : DecoderState) [b4] =
      ([decodeFrame b0 b1 b2 b3 b4], ⟨[]⟩) := by
    have : ([b0, b1, b2, b3] : List Byte) ++ [b4] = [b0, b1, b2, b3, b4] := rfl
    simp [feed, this, run_cons_valid b0 b1 b2 b3 b4 [] hg, run_short]
  rw [e1, e2, e3, e4, e5]
  simp

/-- Witness for claim C5 at the concrete scenario frame of the spec. -/
theorem boundary_byte_by_byte_witness :
    validFrame [129, 0, 8, 60, 98] = true ∧
      (feed freshDecoder [129]).1 = [] ∧
      (feed (feed freshDecoder [129]).2 [0]).1 = [] ∧
      (feed (feed (feed freshDecoder [129]).2 [0]).2 [8]).1 = [] ∧
      (feed (feed (feed (feed freshDecoder [129]).2 [0]).2 [8]).2 [60]).1 = [] ∧
      (feed (feed (feed (feed (feed freshDecoder [129]).2 [0]).2 [8]).2
        [60]).2 [98]).1 = [decodeFrame 129 0 8 60 98] :=
  ⟨by decide, boundary_byte_by_byte 129 0 8 60 98 (by decide)⟩

/-- Claim C6: a frame whose raw spo2 byte equals the invalid sentinel decodes
to an absent spo2, and a frame whose raw pulse-rate byte equals the sentinel
decodes to an absent pulse_rate - never to the sentinel's numeric value. -/
theorem sentinel_decodes_absent (b0 b1 b2 b3 b4 : Byte) :
    (decodeFrame b0 b1 b2 b3 SENTINEL).spo2 = none ∧
      (decodeFrame b0 b1 b2 SENTINEL b4).pulse_rate = none := by
  constructor
  · simp [decodeFrame, SENTINEL]
  · simp [decodeFrame, SENTINEL]

/-! Consumer-layer lemmas. -/

/-- The effect of one delivery on every sink (oximeter.py lines 263-280). -/
theorem deliver_reading_spec (s : OximeterState) (r : OximeterReading) :
    (deliver_reading s r).latest_reading = some r ∧
      (deliver_reading s r).collected_readings =
        (if s.is_collecting then s.collected_readings ++ [r]
          else s.collected_readings) ∧
      (deliver_reading s r).callback_out =
        (if s.streaming_callback then s.callback_out ++ [r]
          else s.callback_out) ∧
      (deliver_reading s r).console_out =
        (if s.console_logging then s.console_out ++ [r] else s.console_out) ∧
      (deliver_reading s r).csv_file =
        (if s.csv_writer then
          s.csv_file.map (fun fl => ⟨fl.rows ++ [csvRow r], fl.rows.length + 1⟩)
        else s.csv_file) ∧
      (deliver_reading s r).csv_writer = s.csv_writer := by
  cases h1 : s.is_collecting <;> cases h2 : s.streaming_callback <;>
    cases h3 : s.console_logging <;> cases h4 : s.csv_writer <;>
    simp [deliver_reading, log_to_csv, h1, h2, h3, h4]

/-- A reading that passes the filter is delivered (oximeter.py 257-262). -/
theorem handle_reading_passes (s : OximeterState) (r : OximeterReading)
    (hp : passesFilter s r = true) :
    handle_reading s r = deliver_reading s r := by
  unfold passesFilter at hp
  unfold handle_reading
  cases hm : s.min_signal_strength with
  | none => rfl
  | some m =>
    rw [hm] at hp
    simp only [decide_eq_true_eq] at hp
    simp [Nat.not_lt.mpr hp]

/-- pollLoop returns none only if the cache was empty at every check. -/
theorem pollLoop_none_all (latestAt : Nat → Option OximeterReading)
    (fuel : Nat) :
    ∀ k, pollLoop latestAt k fuel = none →
      ∀ j, k ≤ j → j < k + fuel → latestAt j = none := by
  induction fuel with
  | zero => intro k _ j _ h2; omega
  | succ n ih =>
    intro k h j h1 h2
    cases hk : latestAt k with
    | some r =>
      simp only [pollLoop, hk] at h
      simp at h
    | none =>
      simp only [pollLoop, hk] at h
      rcases Nat.eq_or_lt_of_le h1 with rfl | hlt
      · exact hk
      · exact ih (k + 1) h j hlt (by omega)

/-! Claims C7 to C10. -/

/-- Claim C7 counterexample: with CSV logging active and a signal-strength
filter of 5 configured, a reading of signal strength 3 produced by the
decoder is dropped by _handle_data before reaching _log_to_csv; the whole
state, CSV file included, is left unchanged - no row is appended for that
reading, refuting the claim that every Reading produced yields a row while
logging is active. -/
theorem csv_row_filtered_counterexample :
    loggingFilteredState.csv_writer = true ∧
      passesFilter loggingFilteredState weakReading = false ∧
      handle_data loggingFilteredState [weakReading] = loggingFilteredState := by
  refine ⟨rfl, by decide, by decide⟩

/-- Claim C7 (amended): while CSV logging is active, every Reading produced
by the decoder that passes the signal-strength filter results in exactly one
appended row (csvRow: timestamp, spo2, pulse_rate, pleth, signal_strength,
status, pulse_beep, in that order), and the file is flushed (all rows
flushed) before the handling of that reading returns. -/
theorem csv_row_per_reading (s : OximeterState) (r : OximeterReading)
    (hw : s.csv_writer = true) (hp : passesFilter s r = true) :
    (handle_reading s r).csv_file =
        s.csv_file.map (fun fl => ⟨fl.rows ++ [csvRow r], fl.rows.length + 1⟩) ∧
      ((handle_reading s r).csv_file.all
        (fun fl => fl.flushedRows == fl.rows.length)) = true := by
  rw [handle_reading_passes s r hp]
  obtain ⟨-, -, -, -, hcsv, -⟩ := deliver_reading_spec s r
  rw [hw] at hcsv
  simp only [if_pos] at hcsv
  constructor
  · exact hcsv
  · rw [hcsv]
    cases s.csv_file with
    | none => rfl
    | some fl => simp

/-- Witness for claim C7 (amended) at a concrete logging state. -/
theorem csv_row_per_reading_witness :
    loggingFilteredState.csv_writer = true ∧
      passesFilter loggingFilteredState sampleReading = true ∧
      ((handle_reading loggingFilteredState sampleReading).csv_file =
        loggingFilteredState.csv_file.map
          (fun fl => ⟨fl.rows ++ [csvRow sampleReading], fl.rows.length + 1⟩) ∧
      ((handle_reading loggingFilteredState sampleReading).csv_file.all
        (fun fl => fl.flushedRows == fl.rows.length)) = true) :=
  ⟨rfl, by decide,
    csv_row_per_reading loggingFilteredState sampleReading rfl (by decide)⟩

/-- Claim C8: with a minimum signal strength configured, a reading strictly
below it leaves the state untouched - no sink sees it - while a reading at
or above it updates the latest-reading cache and is appended to every active
sink: the collection buffer, the streaming callback, the console, and the
CSV log. -/
theorem filter_excludes_and_admits (s : OximeterState) (r : OximeterReading)
    (m : Nat) (hm : s.min_signal_strength = some m) :
    (r.signal_strength < m → handle_reading s r = s) ∧
      (m ≤ r.signal_strength →
        (handle_reading s r).latest_reading = some r ∧
        (s.is_collecting = true →
          (handle_reading s r).collected_readings =
            s.collected_readings ++ [r]) ∧
        (s.streaming_callback = true →
          (handle_reading s r).callback_out = s.callback_out ++ [r]) ∧
        (s.console_logging = true →
          (handle_reading s r).console_out = s.console_out ++ [r]) ∧
        (s.csv_writer = true →
          (handle_reading s r).csv_file =
            s.csv_file.map
              (fun fl => ⟨fl.rows ++ [csvRow r], fl.rows.length + 1⟩))) := by
  constructor
  · intro hlt
    unfold handle_reading
    rw [hm]
    simp [hlt]
  · intro hge
    have hpass : passesFilter s r = true := by
      rw [passesFilter, hm]
      simpa using hge
    rw [handle_reading_passes s r hpass]
    obtain ⟨hl, hc, hcb, hco, hcsv, -⟩ := deliver_reading_spec s r
    refine ⟨hl, ?_, ?_, ?_, ?_⟩
    · intro h; rw [hc, if_pos h]
    · intro h; rw [hcb, if_pos h]
    · intro h; rw [hco, if_pos h]
    · intro h; rw [hcsv, if_pos h]

/-- Witness for claim C8: a concrete state with every sink active and a
filter of 4 configured, applied to a reading of signal strength 3. -/
theorem filter_excludes_and_admits_witness :
    fullSinkState.min_signal_strength = some 4 ∧
      ((weakReading.signal_strength < 4 →
        handle_reading fullSinkState weakReading = fullSinkState) ∧
      (4 ≤ weakReading.signal_strength →
        (handle_reading fullSinkState weakReading).latest_reading =
          some weakReading ∧
        (fullSinkState.is_collecting = true →
          (handle_reading fullSinkState weakReading).collected_readings =
            fullSinkState.collected_readings ++ [weakReading]) ∧
        (fullSinkState.streaming_callback = true →
          (handle_reading fullSinkState weakReading).callback_out =
            fullSinkState.callback_out ++ [weakReading]) ∧
        (fullSinkState.console_logging = true →
          (handle_reading fullSinkState weakReading).console_out =
            fullSinkState.console_out ++ [weakReading]) ∧
        (fullSinkState.csv_writer = true →
          (handle_reading fullSinkState weakReading).csv_file =
            fullSinkState.csv_file.map
              (fun fl =>
                ⟨fl.rows ++ [csvRow weakReading], fl.rows.length + 1⟩)))) :=
  ⟨rfl, filter_excludes_and_admits fullSinkState weakReading 4 rfl⟩

/-- Claim C9 counterexample: with timeout 0 the polling loop of get_reading
performs no check at all (the while condition fails immediately), so
NoDataError is raised - get_reading returns none - even though a reading is
cached the whole time.  This refutes the claim that the cached latest reading
is returned immediately whenever one exists. -/
theorem get_reading_zero_timeout_counterexample :
    (fun _ : Nat => some sampleReading) 0 = some sampleReading ∧
      get_reading_model 0 (fun _ : Nat => some sampleReading) = none := by
  constructor
  · rfl
  · rw [get_reading_model, show pollCount 0 = 0 from by simp [pollCount]]
    rfl

/-- Claim C9 (amended): for every positive timeout, get_reading returns the
cached latest reading at the very first poll whenever one exists - even if it
was decoded before the call began, since the cache is whatever latestAt 0
holds - and it reports NoDataError (none) only when the cache was empty at
every poll within the timeout. -/
theorem get_reading_cached_immediately (timeout : ℚ)
    (latestAt : Nat → Option OximeterReading) (ht : 0 < timeout) :
    (latestAt 0 ≠ none → get_reading_model timeout latestAt = latestAt 0) ∧
      (get_reading_model timeout latestAt = none →
        ((List.range (pollCount timeout)).all
          (fun k => decide (latestAt k = none))) = true) := by
  have hpc : 1 ≤ pollCount timeout := by
    rw [pollCount, if_neg (not_le.2 ht)]
    have h10 : (0 : ℚ) < 10 * timeout := by positivity
    have hceil : (0 : ℤ) < Int.ceil (10 * timeout) := Int.ceil_pos.2 h10
    omega
  obtain ⟨n, hn⟩ : ∃ n, pollCount timeout = n + 1 :=
    ⟨pollCount timeout - 1, by omega⟩
  constructor
  · intro h0
    cases hk : latestAt 0 with
    | none => exact absurd hk h0
    | some r =>
      rw [get_reading_model, hn]
      simp [pollLoop, hk]
  · intro hnone
    have hall := pollLoop_none_all latestAt (pollCount timeout) 0 hnone
    simp only [List.all_eq_true, List.mem_range, decide_eq_true_eq]
    intro k hkr
    exact hall k (by omega) (by omega)

/-- Witness for claim C9 (amended) at timeout 1 with a permanently cached
reading. -/
theorem get_reading_cached_immediately_witness :
    (0 : ℚ) < 1 ∧
      (((fun _ : Nat => some sampleReading) 0 ≠ none →
        get_reading_model 1 (fun _ : Nat => some sampleReading) =
          (fun _ : Nat => some sampleReading) 0) ∧
      (get_reading_model 1 (fun _ : Nat => some sampleReading) = none →
        ((List.range (pollCount 1)).all
          (fun k =>
            decide ((fun _ : Nat => some sampleReading) k = none))) = true)) :=
  ⟨by norm_num,
    get_reading_cached_immediately 1 (fun _ => some sampleReading) (by norm_num)⟩

/-- Claim C10: stop_logging returns the filename established by the most
recent start_logging and clears the logging state (file, writer, filename);
a second consecutive stop_logging returns none and leaves the state
unchanged, and stop_logging on a fresh instance returns none and is the
identity - so applying it twice has the same state effect as applying it
once. -/
theorem stop_logging_idempotent (s : OximeterState) (f : String) :
    (stop_logging (start_logging f s).2).1 = some f ∧
      (stop_logging (start_logging f s).2).2.csv_file = none ∧
      (stop_logging (start_logging f s).2).2.csv_writer = false ∧
      (stop_logging (start_logging f s).2).2.csv_filename = none ∧
      (stop_logging (stop_logging s).2).1 = none ∧
      (stop_logging (stop_logging s).2).2 = (stop_logging s).2 ∧
      (stop_logging initState).1 = none ∧
      (stop_logging initState).2 = initState := by
  obtain ⟨lr, cr, ic, cf, cw, cfn, cl, co, ms, sc, cb⟩ := s
  cases cf with
  | none => simp [stop_logging, start_logging, initState]
  | some fl => simp [stop_logging, start_logging, initState]

end BerryOximeter
